import Mathlib

/-!
Verification of the FlannelFox feed-ingestion and filter-compilation pipeline
(`src/flannelfox/Settings.py`) against its natural-language specification.

The Python module is shallowly embedded: JSON/Python values become the
inductive `PyVal`, Python exceptions become the error type `PyErr` threaded
through `Except`, and each adapter's per-record control flow (`continue`
versus an exception escaping to the per-file handler) is made explicit in the
result types.  Machine-level concerns (actual file IO, the network) are
abstracted into explicit environment records whose fields stand for the
outcomes of the corresponding system calls, exactly as the code branches on
them.
-/

namespace FlannelFox

/-- A Python float kept in decimal form, `mantissa / 10 ^ exp10`.  The module
never computes with float values (`minRatio` is only stored), so the
unnormalized decimal representation is a faithful model. -/
structure PyFloat where
  mantissa : ℤ
  exp10 : ℕ
deriving DecidableEq

/-- Python/JSON values as they flow through `Settings.py`: strings, integers,
floats, booleans, `None`, lists and string-keyed dicts (a dict is its
association list in iteration order). -/
inductive PyVal where
  | str : String → PyVal
  | int : Int → PyVal
  | float : PyFloat → PyVal
  | bool : Bool → PyVal
  | none : PyVal
  | list : List PyVal → PyVal
  | dict : List (String × PyVal) → PyVal

/-- The Python exception classes that the module's handlers distinguish.
`Settings.py` catches `(ValueError, KeyError, TypeError)` around minor-feed
parsing, `OSError` around `os.makedirs`, and bare `Exception` elsewhere;
`AttributeError` and `IndexError` arise from `.strip()`/`.get()` on values of
the wrong type and from `.items()[0]` on an empty dict. -/
inductive PyErr where
  | valueErr
  | keyErr
  | typeErr
  | attrErr
  | indexErr
  | osErr
deriving DecidableEq

/-- Truthiness of a Python value (`if v:`). -/
def pyTruthyVal : PyVal → Bool
  | .str s => s ≠ ""
  | .int n => n ≠ 0
  | .float q => q.mantissa ≠ 0
  | .bool b => b
  | .none => false
  | .list l => !l.isEmpty
  | .dict d => !d.isEmpty

/-- Truthiness of an optional boolean: Python `None` is falsy.  Used for the
results of `isCacheUpdateNeeded`, whose exception path returns `None`. -/
def pyTruthy : Option Bool → Bool
  | Option.none => false
  | some b => b

/-- Whether a Python value is `None` (the `is None` test). -/
def pyIsNone : PyVal → Bool
  | .none => true
  | _ => false

/-- First value bound to `k` in a dict's association list (`d[k]` / `d.get(k)`
before defaulting). -/
def dictGet (d : List (String × PyVal)) (k : String) : Option PyVal :=
  match d with
  | [] => Option.none
  | (k', v) :: rest => if k' = k then some v else dictGet rest k

/-- Python `d.get(k, default)` on an association list. -/
def dictGetD (d : List (String × PyVal)) (k : String) (dflt : PyVal) : PyVal :=
  match dictGet d k with
  | some v => v
  | Option.none => dflt

/-- Python `v.get(k, default)`: `AttributeError` when `v` is not a dict. -/
def pyDictGetD (v : PyVal) (k : String) (dflt : PyVal) : Except PyErr PyVal :=
  match v with
  | .dict d => .ok (dictGetD d k dflt)
  | _ => .error .attrErr

/-- Python `v[k]` subscription by a string key: `KeyError` when the key is
missing, `TypeError` when `v` is not subscriptable by a string. -/
def pyGetItem (v : PyVal) (k : String) : Except PyErr PyVal :=
  match v with
  | .dict d =>
    match dictGet d k with
    | some x => .ok x
    | Option.none => .error .keyErr
  | _ => .error .typeErr

/-- Occurrence of `pat` as a contiguous sublist of `l` (Python's substring
test `pat in s`). -/
def listContainsSub (pat : List Char) : List Char → Bool
  | [] => pat.isEmpty
  | c :: rest => List.isPrefixOf pat (c :: rest) || listContainsSub pat rest

/-- Python `k in v` for a string `k`: key test on a dict, substring test on a
string, `TypeError` otherwise (the adapters only apply it to parsed JSON
objects). -/
def pyContains (v : PyVal) (k : String) : Except PyErr Bool :=
  match v with
  | .dict d => .ok (d.any (fun p => p.1 = k))
  | .str s => .ok (listContainsSub k.data s.data)
  | _ => .error .typeErr

/-- Python iteration `for x in v`: the elements of a list, the characters of a
string, the keys of a dict; `TypeError` on non-iterables. -/
def pyIter (v : PyVal) : Except PyErr (List PyVal) :=
  match v with
  | .list l => .ok l
  | .str s => .ok (s.data.map (fun c => .str (String.mk [c])))
  | .dict d => .ok (d.map (fun p => .str p.1))
  | _ => .error .typeErr

/-- The whitespace characters Python's default `str.strip()` removes. -/
def isPySpace (c : Char) : Bool :=
  c == ' ' || c == '\t' || c == '\n' || c == '\r' || c == '\x0b' || c == '\x0c'

/-- Python `s.strip()` on the character list: drop whitespace from both
ends. -/
def stripChars (l : List Char) : List Char :=
  ((l.dropWhile isPySpace).reverse.dropWhile isPySpace).reverse

/-- Python `s.strip()` as a string function. -/
def strStrip (s : String) : String :=
  String.mk (stripChars s.data)

/-- Python `s.lower()` as a string function (the subjects and names in the
configs are ASCII, where `Char.toLower` agrees with Python). -/
def strLower (s : String) : String :=
  String.mk (s.data.map Char.toLower)

/-- Python `s.replace(pat, rep)` on character lists: replace every
non-overlapping occurrence left to right.  `fuel` bounds the recursion and is
always instantiated with the input's length, which suffices because each step
consumes at least one character. -/
def replaceFuel (pat rep : List Char) : ℕ → List Char → List Char
  | 0, l => l
  | _ + 1, [] => []
  | n + 1, c :: rest =>
    if pat ≠ [] ∧ List.isPrefixOf pat (c :: rest) then
      rep ++ replaceFuel pat rep n (List.drop pat.length (c :: rest))
    else
      c :: replaceFuel pat rep n rest

/-- Python `s.replace(pat, rep)` as a string function. -/
def strReplace (s pat rep : String) : String :=
  String.mk (replaceFuel pat.data rep.data s.data.length s.data)

/-- Python `v.strip()`: `AttributeError` unless `v` is a string. -/
def pyStrip (v : PyVal) : Except PyErr String :=
  match v with
  | .str s => .ok (strStrip s)
  | _ => .error .attrErr

/-- Python `v.lower()` followed by `.strip()` (`AttributeError` unless `v` is
a string), as the adapters run on `list_name` and `type`. -/
def pyLowerStrip (v : PyVal) : Except PyErr String :=
  match v with
  | .str s => .ok (strStrip (strLower s))
  | _ => .error .attrErr

/-- Subject normalization of the music and tracking adapters:
`x.lower().strip().replace(u" & ", u" and ")`. -/
def lowerStripReplace (s : String) : String :=
  strReplace (strStrip (strLower s)) " & " " and "

/-- Monadic map over a list in `Except`, in source order; the first error
aborts the rest, exactly as a Python `for` loop does when an iteration
raises. -/
def exceptMapM (f : α → Except PyErr β) : List α → Except PyErr (List β)
  | [] => .ok []
  | a :: as =>
    match f a with
    | .error e => .error e
    | .ok b =>
      match exceptMapM f as with
      | .error e => .error e
      | .ok bs => .ok (b :: bs)

/-- Value of a list of decimal digit characters, most significant first. -/
def digitsVal (l : List Char) : ℕ :=
  l.foldl (fun acc c => acc * 10 + (c.toNat - 48)) 0

/-- Python `int(s)` on an already-stripped string: an optional sign followed
by at least one decimal digit; anything else raises `ValueError`. -/
def pyIntParse (s : String) : Except PyErr ℤ :=
  match s.data with
  | '-' :: ds =>
    if ds ≠ [] ∧ ds.all Char.isDigit then .ok (-(digitsVal ds : ℤ)) else .error .valueErr
  | '+' :: ds =>
    if ds ≠ [] ∧ ds.all Char.isDigit then .ok (digitsVal ds : ℤ) else .error .valueErr
  | ds =>
    if ds ≠ [] ∧ ds.all Char.isDigit then .ok (digitsVal ds : ℤ) else .error .valueErr

/-- Python `float(s)` on an already-stripped string, for the decimal literals
the config files use: an optional sign, digits, an optional fractional part.
Anything else raises `ValueError`. -/
def pyFloatParse (s : String) : Except PyErr PyFloat :=
  let core : List Char → Except PyErr (ℕ × ℕ) := fun ds =>
    match ds.splitOn '.' with
    | [intPart] =>
      if intPart ≠ [] ∧ intPart.all Char.isDigit then .ok (digitsVal intPart, 0)
      else .error .valueErr
    | [intPart, fracPart] =>
      if (intPart ≠ [] ∨ fracPart ≠ []) ∧ intPart.all Char.isDigit ∧
          fracPart.all Char.isDigit then
        .ok (digitsVal (intPart ++ fracPart), fracPart.length)
      else .error .valueErr
    | _ => .error .valueErr
  match s.data with
  | '-' :: ds => do
    let (m, e) ← core ds
    pure ⟨-(m : ℤ), e⟩
  | '+' :: ds => do
    let (m, e) ← core ds
    pure ⟨(m : ℤ), e⟩
  | ds => do
    let (m, e) ← core ds
    pure ⟨(m : ℤ), e⟩

/-- One compiled matching rule, the dict
`{u"key": key, u"val": val, u"exclude": exclude}` every adapter appends to a
rule list. -/
structure Rule where
  key : String
  val : PyVal
  exclude : Bool

/-- One validated minor feed, the dict the adapters append to `minorFeeds`:
`{u"url": url, u"minTime": minTime, u"minRatio": minRatio,
u"comparison": comparison}`. -/
structure MinorFeed where
  url : String
  minTime : ℤ
  minRatioVal : PyFloat
  comparison : String

/-- One registry entry, the dict each adapter stores in `majorFeeds`. -/
structure MajorFeed where
  feedName : String
  feedType : String
  feedDestination : String
  minorFeeds : List MinorFeed
  feedFilters : List (List Rule)

/-- The adapters' output mapping `majorFeeds`, as an association list in
insertion order. -/
abbrev Registry := List (String × MajorFeed)

/-- Python dict assignment `reg[k] = v`: replace the value of an existing key
in place, append a new key at the end. -/
def dictInsert (reg : Registry) (k : String) (v : MajorFeed) : Registry :=
  match reg with
  | [] => [(k, v)]
  | (k', v') :: rest =>
    if k' = k then (k, v) :: rest else (k', v') :: dictInsert rest k v

/-- Registry lookup `reg[k]`. -/
def regLookup (reg : Registry) (k : String) : Option MajorFeed :=
  match reg with
  | [] => Option.none
  | (k', v) :: rest => if k' = k then some v else regLookup rest k

/-- Ceiling division `⌈a / b⌉` for integers, written through floor division
(`Int.ediv`, Lean's `/`, which rounds toward negative infinity for a positive
divisor): `⌈a / b⌉ = -⌊-a / b⌋`. -/
def ceilDiv (a b : ℤ) : ℤ := -((-a) / b)

/-- Embedding of `modificationDate` (`Settings.py` lines 131-137): the file's
modification time in whole epoch seconds, or `-1` when the path is missing or
its timestamp cannot be read (the bare `except` branch). -/
def modificationDate (mtime : Option ℤ) : ℤ :=
  match mtime with
  | some t => t
  | Option.none => -1

/-- Embedding of `isCacheUpdateNeeded` (`Settings.py` lines 140-159).
`now` is `time.time()` in whole seconds and `mtime` the cache file's
modification time (`Option.none` when missing or unreadable).  `fault` selects
the function's own `except Exception` branch, which logs and falls off the end
of the function, so the caller receives Python `None`; all other paths return
a boolean.  `difference = math.ceil(time.time()/60 - lastModified/60)`
(line 150) under Python 2 division: `time.time()/60` is float true division,
but `lastModified` is an `int`, so `lastModified/60` floor-divides.  The code
therefore computes `ceil(now/60 - (lastModified // 60))`, which for a
second-valued `now` is exactly
`ceilDiv (now - 60 * (lastModified / 60)) 60` (Lean's `/` on `ℤ` floors for
the positive divisor 60, as Python's `//` does). -/
def isCacheUpdateNeeded (fault : Bool) (now : ℤ) (mtime : Option ℤ)
    (frequency : ℤ) : Option Bool :=
  if fault then Option.none
  else
    let lastModified := modificationDate mtime
    if lastModified = -1 then some true
    else
      let difference := ceilDiv (now - 60 * (lastModified / 60)) 60
      if frequency ≤ difference then some true else some false

/-- Default of the `frequency` parameter of `isCacheUpdateNeeded` and
`updateCacheFile`: 360 minutes. -/
def defaultFrequency : ℤ := 360

/-- The adapters call `isCacheUpdateNeeded(cacheFilename=...)` with the
default frequency. -/
def isCacheUpdateNeededDefault (now : ℤ) (mtime : Option ℤ) : Option Bool :=
  isCacheUpdateNeeded false now mtime defaultFrequency

/-- Embedding of `updateCacheFile` (`Settings.py` lines 163-186), as the
content of the cache file after the call.  The function re-checks
`isCacheUpdateNeeded` (a falsy result, including the `None` of a check fault,
skips the write), then opens the file in mode `'w'` and writes `data`,
truncating whatever was there; `writeOk = false` stands for an `open`/`write`
failure, which the surrounding `except` swallows, leaving the old content. -/
def updateCacheFile (checkFault writeOk : Bool) (now : ℤ) (mtime : Option ℤ)
    (frequency : ℤ) (old : Option String) (data : String) : Option String :=
  if pyTruthy (isCacheUpdateNeeded checkFault now mtime frequency) then
    if writeOk then some data else old
  else old

/-- Embedding of the minor-feed validation loop body shared verbatim by all
four adapters (`Settings.py` lines 276-280): each field is `.get` with a
string default, `.strip()`ped (an `AttributeError` on non-string values),
and `minTime`/`minRatio` are converted with `int()`/`float()`
(a `ValueError` on malformed strings). -/
def parseMinorFeed (mf : PyVal) : Except PyErr MinorFeed := do
  let url ← pyStrip (← pyDictGetD mf "url" (.str ""))
  let minTimeS ← pyStrip (← pyDictGetD mf "minTime" (.str "0"))
  let minTime ← pyIntParse minTimeS
  let minRatioS ← pyStrip (← pyDictGetD mf "minRatio" (.str "0.0"))
  let minRatioF ← pyFloatParse minRatioS
  let comparison ← pyStrip (← pyDictGetD mf "comparison" (.str "or"))
  pure ⟨url, minTime, minRatioF, comparison⟩

/-- Python `len(v)`: `TypeError` on values without a length. -/
def pyLen (v : PyVal) : Except PyErr ℕ :=
  match v with
  | .list l => .ok l.length
  | .str s => .ok s.data.length
  | .dict d => .ok d.length
  | _ => .error .typeErr

/-- Embedding of the `minorFeeds` collection step (`Settings.py` lines
274-280): `if v is not None and len(v) > 0:` guard, then the per-entry parse
in order; the first raising entry aborts the loop with its exception. -/
def collectMinorFeeds (v : PyVal) : Except PyErr (List MinorFeed) :=
  if pyIsNone v then .ok []
  else do
    let n ← pyLen v
    if n > 0 then
      let entries ← pyIter v
      exceptMapM parseMinorFeed entries
    else
      .ok []

/-- Whether an exception is caught by the adapters'
`except (ValueError, KeyError, TypeError)` handler around the minor-feed
loop; anything else (notably `AttributeError`) escapes to the per-file
handler. -/
def caughtVKT : PyErr → Bool
  | .valueErr => true
  | .keyErr => true
  | .typeErr => true
  | _ => false

/-- Python `v.items()` on a dict (`AttributeError` otherwise); Python 2
returns the pair list directly. -/
def pyItems (v : PyVal) : Except PyErr (List (String × PyVal)) :=
  match v with
  | .dict d => .ok d
  | _ => .error .attrErr

/-- Python `l[0]`: `IndexError` on an empty list. -/
def listHead (l : List (String × PyVal)) : Except PyErr (String × PyVal) :=
  match l with
  | [] => .error .indexErr
  | p :: _ => .ok p

/-- Embedding of the exclude/include loops shared verbatim by all four
adapters (for example `Settings.py` lines 357-363): each element contributes
one rule built from `element.items()[0]`, its first key/value pair. -/
def rulesFromPairs (excludeFlag : Bool) : List PyVal → Except PyErr (List Rule)
  | [] => .ok []
  | e :: es => do
    let items ← pyItems e
    let kv ← listHead items
    let rest ← rulesFromPairs excludeFlag es
    pure (⟨kv.1, kv.2, excludeFlag⟩ :: rest)

/-- The exclude-then-include tail every adapter appends to a rule list, from
one filter template `filterItem`:
`filterItem.get("exclude", [])` then `filterItem.get("include", [])`. -/
def templateTail (filterItem : PyVal) : Except PyErr (List Rule) := do
  let excl ← pyIter (← pyDictGetD filterItem "exclude" (.list []))
  let exRules ← rulesFromPairs true excl
  let incl ← pyIter (← pyDictGetD filterItem "include" (.list []))
  let incRules ← rulesFromPairs false incl
  pure (exRules ++ incRules)

/-- Embedding of the music adapter's per-(template, artist) rule list
(`Settings.py` lines 349-363): normalize the artist
(`artist.lower().strip().replace(u" & ", u" and ")`, an `AttributeError` on a
non-string), bind it under the key `"artist"`, then the template's excludes
and includes. -/
def lastfmRuleList (artist : PyVal) (filterItem : PyVal) :
    Except PyErr (List Rule) :=
  match artist with
  | .str a => do
    let tail ← templateTail filterItem
    pure (⟨"artist", .str (lowerStripReplace a), false⟩ :: tail)
  | _ => .error .attrErr

/-- The music adapter's nested compile loops (`Settings.py` lines 344-365):
templates outer, artists inner, rule lists appended in iteration order. -/
def lastfmFilterLoop (artists : List PyVal) : List PyVal →
    Except PyErr (List (List Rule))
  | [] => .ok []
  | f :: fs => do
    let lists ← exceptMapM (fun a => lastfmRuleList a f) artists
    let rest ← lastfmFilterLoop artists fs
    pure (lists ++ rest)

/-- Embedding of the music adapter's feed-filter compilation step
(`Settings.py` lines 339-365): iterate the record's `filters` value over the
fetched artists.  Any exception here is caught by the surrounding
`except Exception` and turns into a `continue` in the record flow. -/
def lastfmFeedFilters (filtersVal artistsVal : PyVal) :
    Except PyErr (List (List Rule)) := do
  let filters ← pyIter filtersVal
  let artists ← pyIter artistsVal
  lastfmFilterLoop artists filters

/-- The two variables `title` and `year` of the tracking adapter's record
loop (`Settings.py` lines 441-442), initialized to `None` once per record
and mutated as items are processed, so a value can persist across items and
templates. -/
structure TraktState where
  title : PyVal
  year : PyVal

/-- Embedding of the tracking adapter's per-item step (`Settings.py` lines
544-588): the `"show"`/`"movie"` membership tests and the four-way branch;
a skipped item leaves the state unchanged and emits no rule list, a matching
item rebinds `title` (and for movies `year`) and emits
`[titleMatchMethod rule] (++ [year rule] if year is not None) ++ excludes ++
includes`. -/
def traktItemStep (feedType : String) (like : Bool) (filterItem : PyVal)
    (st : TraktState) (item : PyVal) :
    Except PyErr (TraktState × Option (List Rule)) := do
  let titleMatchMethod := if like then "titleLike" else "title"
  let hasShow ← pyContains item "show"
  let hasMovie ← pyContains item "movie"
  if !hasShow ∧ feedType = "tv" then
    pure (st, Option.none)
  else if !hasMovie ∧ feedType = "movie" then
    pure (st, Option.none)
  else if hasShow ∧ feedType = "tv" then do
    let sub ← pyGetItem item "show"
    let t ← pyGetItem sub "title"
    match t with
    | .str ts => do
      let st' : TraktState := ⟨.str (lowerStripReplace ts), st.year⟩
      let tail ← templateTail filterItem
      let yearPart := if pyIsNone st'.year then [] else
        [Rule.mk "year" st'.year false]
      pure (st', some (⟨titleMatchMethod, st'.title, false⟩ :: yearPart ++ tail))
    | _ => .error .attrErr
  else if hasMovie ∧ feedType = "movie" then do
    let sub ← pyGetItem item "movie"
    let t ← pyGetItem sub "title"
    let y ← pyGetItem sub "year"
    match t with
    | .str ts => do
      let st' : TraktState := ⟨.str (lowerStripReplace ts), y⟩
      let tail ← templateTail filterItem
      let yearPart := if pyIsNone st'.year then [] else
        [Rule.mk "year" st'.year false]
      pure (st', some (⟨titleMatchMethod, st'.title, false⟩ :: yearPart ++ tail))
    | _ => .error .attrErr
  else
    pure (st, Option.none)

/-- The tracking adapter's inner loop over the fetched items, threading the
`title`/`year` state. -/
def traktInner (feedType : String) (like : Bool) (filterItem : PyVal)
    (st : TraktState) : List PyVal →
    Except PyErr (TraktState × List (List Rule))
  | [] => .ok (st, [])
  | it :: its => do
    let (st', r?) ← traktItemStep feedType like filterItem st it
    let (st'', rest) ← traktInner feedType like filterItem st' its
    match r? with
    | some rl => pure (st'', rl :: rest)
    | Option.none => pure (st'', rest)

/-- The tracking adapter's outer loop over the filter templates. -/
def traktOuter (feedType : String) (like : Bool) (items : List PyVal)
    (st : TraktState) : List PyVal →
    Except PyErr (TraktState × List (List Rule))
  | [] => .ok (st, [])
  | f :: fs => do
    let (st', lists) ← traktInner feedType like f st items
    let (st'', rest) ← traktOuter feedType like items st' fs
    pure (st'', lists ++ rest)

/-- Embedding of the tracking adapter's feed-filter compilation step
(`Settings.py` lines 535-588): `title` and `year` start as `None` for the
record, then templates outer, items inner. -/
def traktFeedFilters (feedType : String) (like : Bool)
    (filtersVal resultsVal : PyVal) : Except PyErr (List (List Rule)) := do
  let filters ← pyIter filtersVal
  let items ← pyIter resultsVal
  let (_, lists) ← traktOuter feedType like items ⟨.none, .none⟩ filters
  pure lists

/-- Embedding of the cataloging adapter's per-(template, item) rule list
(`Settings.py` lines 784-803).  `title` is the record-level variable
initialized to `None` at line 664; the author loop never assigns it (nor
reads `item` at all), so the head rule binds whatever `title` holds. -/
def goodreadsRuleList (like : Bool) (title : PyVal) (filterItem : PyVal) :
    Except PyErr (List Rule) := do
  let titleMatchMethod := if like then "titleLike" else "title"
  let tail ← templateTail filterItem
  pure (⟨titleMatchMethod, title, false⟩ :: tail)

/-- The cataloging adapter's inner loop over the fetched author items: the
loop variable `item` is never used by the body. -/
def goodreadsInner (like : Bool) (title : PyVal) (filterItem : PyVal) :
    List PyVal → Except PyErr (List (List Rule))
  | [] => .ok []
  | _ :: its => do
    let rl ← goodreadsRuleList like title filterItem
    let rest ← goodreadsInner like title filterItem its
    pure (rl :: rest)

/-- The cataloging adapter's outer loop over the filter templates. -/
def goodreadsOuter (like : Bool) (title : PyVal) (items : List PyVal) :
    List PyVal → Except PyErr (List (List Rule))
  | [] => .ok []
  | f :: fs => do
    let lists ← goodreadsInner like title f items
    let rest ← goodreadsOuter like title items fs
    pure (lists ++ rest)

/-- Embedding of the cataloging adapter's feed-filter compilation step
(`Settings.py` lines 775-803), parameterized by the record-level `title`
variable (`None` when reached through the record flow). -/
def goodreadsFeedFilters (like : Bool) (filtersVal resultsVal title : PyVal) :
    Except PyErr (List (List Rule)) := do
  let filters ← pyIter filtersVal
  let items ← pyIter resultsVal
  goodreadsOuter like title items filters

/-- Embedding of the raw-descriptor adapter's feed-filter compilation step
(`Settings.py` lines 933-952): one rule list per template, no subject rule,
excludes then includes. -/
def rssFeedFilters (filtersVal : PyVal) : Except PyErr (List (List Rule)) := do
  let filters ← pyIter filtersVal
  exceptMapM templateTail filters

/-- Normalization of one author name by the cataloging adapter's fetch parser
(`Settings.py` lines 740-741): `unicode(author.strip())` then
`.replace(u" & ", u" and ")` — and, unlike the music and tracking adapters,
no lower-casing. -/
def goodreadsNormalize (s : String) : String :=
  strReplace (strStrip s) " & " " and "

/-- Embedding of the cataloging adapter's XML author extraction
(`Settings.py` lines 735-746).  Each `author` element is modelled as
`Option (Option String)`: the outer `Option.none` stands for an entry whose
`name` tag is missing (the per-author `except` skips it), the inner for a
`name` tag with no text (`author is None`, skipped), `some (some s)` for the
tag's text.  An empty text is skipped by `author != ""`. -/
def goodreadsParseAuthors (entries : List (Option (Option String))) :
    List String :=
  match entries with
  | [] => []
  | some (some s) :: rest =>
    if s ≠ "" then goodreadsNormalize s :: goodreadsParseAuthors rest
    else goodreadsParseAuthors rest
  | _ :: rest => goodreadsParseAuthors rest

/-- Python `s.endswith(suffix)` (used to skip non-`.json` config files). -/
def strEndsWith (s suffix : String) : Bool :=
  List.isSuffixOf suffix.data s.data

/-- Outcome of one `requests.get` call: `exc` when the call raised (timeout,
connection error — the adapters then set `httpResponse = -1`), otherwise the
response's status code and parsed JSON body (`r.json()`, consulted only when
the status is 200). -/
inductive FetchOutcome where
  | exc : FetchOutcome
  | resp : ℤ → PyVal → FetchOutcome

/-- Python `int(v)` applied to a JSON value (the `totalPages` field):
integers pass through, strings are parsed, floats truncate toward zero,
anything else raises `TypeError`. -/
def pyIntCoerce (v : PyVal) : Except PyErr ℤ :=
  match v with
  | .int n => .ok n
  | .str s => pyIntParse (strStrip s)
  | .float f => .ok (Int.tdiv f.mantissa ((10 : ℤ) ^ f.exp10))
  | _ => .error .typeErr

/-- Environment of one music-adapter record: the outcomes of the operating
system and network calls its processing performs.  `dirExists` is
`os.path.exists` on the cache directory, `makedirsOk` whether `os.makedirs`
succeeds (`false` = it raised `OSError`, e.g. a lost creation race), `now`
the clock at the staleness check, `cacheMtime` the cache file's modification
time (`Option.none` = missing/unreadable), `pages` the fetch outcome per
requested page number, `fuel` a bound on the pagination loop (any value at
least the number of pages actually walked is exact), and `cacheRead` the
parsed content of the cache file (`Option.none` = `open`/`json.load`
failed). -/
structure LastfmEnv where
  dirExists : Bool
  makedirsOk : Bool
  now : ℤ
  cacheMtime : Option ℤ
  pages : ℤ → FetchOutcome
  fuel : ℕ
  cacheRead : Option PyVal

/-- Embedding of the music adapter's pagination loop (`Settings.py` lines
289-317): starting at page 1 with `maxPages = 2`, each successful page's
reply re-binds `maxPages` from `reply["artists"]["@attr"]["totalPages"]` and
extends `replies` with `reply["artists"]["artist"][:]`; a request exception
or a non-200 status empties `replies` and breaks.  Returns the collected
reply items and the last `httpResponse`. -/
def lastfmLoop (pages : ℤ → FetchOutcome) :
    ℕ → ℤ → ℤ → List PyVal → ℤ → Except PyErr (List PyVal × ℤ)
  | 0, _, _, replies, http => .ok (replies, http)
  | fuel + 1, currentPage, maxPages, replies, http =>
    if currentPage ≤ maxPages then
      match pages currentPage with
      | .exc => .ok ([], -1)
      | .resp status body =>
        if status = 200 then do
          let artistsObj ← pyGetItem body "artists"
          let attrObj ← pyGetItem artistsObj "@attr"
          let maxPages' ← pyIntCoerce (← pyGetItem attrObj "totalPages")
          let items ← pyIter (← pyGetItem artistsObj "artist")
          lastfmLoop pages fuel (currentPage + 1) maxPages' (replies ++ items) 200
        else .ok ([], status)
    else .ok (replies, http)

/-- Embedding of the music adapter's subject acquisition (`Settings.py` lines
285-336): a fresh cache short-circuits to the cache read; otherwise the
pagination loop runs, the artist names are taken from the replies, a 200
result is used directly (and written back through `updateCacheFile`, a file
effect outside this value), and any failure falls back to the cache read.
`Option.none` is the `continue` taken when the cache read fails. -/
def lastfmSubjects (env : LastfmEnv) : Except PyErr (Option PyVal) :=
  let stale := pyTruthy (isCacheUpdateNeededDefault env.now env.cacheMtime)
  if !stale then
    .ok env.cacheRead
  else
    match lastfmLoop env.pages env.fuel 1 2 [] (-1) with
    | .error e => .error e
    | .ok (replies, http) =>
      match exceptMapM (fun a => pyGetItem a "name") replies with
      | .error e => .error e
      | .ok names =>
        if http = 200 then .ok (some (.list names))
        else .ok env.cacheRead

/-- The record keys whose absence (or JSON `null` value) makes the music,
tracking and cataloging adapters skip a record (`Settings.py` lines
215-222). -/
def requiredKeys : List String :=
  ["username", "api_key", "list_name", "type", "feedDestination", "minorFeeds"]

/-- The adapters' basic-parts validation: every required key present and not
`None`. -/
def validRecord (d : List (String × PyVal)) (keys : List String) : Bool :=
  keys.all (fun k =>
    match dictGet d k with
    | some v => !(pyIsNone v)
    | Option.none => false)

/-- Embedding of the feed-name step shared by the adapters
(`unicode(rec.get("list_name", u"").lower().strip())`, empty → `ValueError`
→ `continue`, modelled as `Option.none`; a non-string raises
`AttributeError`, which the `except (ValueError, KeyError)` does not
catch). -/
def feedNameStep (d : List (String × PyVal)) : Except PyErr (Option String) :=
  match dictGetD d "list_name" (.str "") with
  | .str s =>
    let fn := strStrip (strLower s)
    if fn = "" then .ok Option.none else .ok (some fn)
  | _ => .error .attrErr

/-- Embedding of the feed-type step
(`unicode(rec.get("type", u"none").lower().strip())`). -/
def feedTypeStep (d : List (String × PyVal)) : Except PyErr String :=
  match dictGetD d "type" (.str "none") with
  | .str s => .ok (strStrip (strLower s))
  | _ => .error .attrErr

/-- Embedding of the feed-destination step
(`unicode(rec.get("feedDestination", u"").strip())`). -/
def feedDestStep (d : List (String × PyVal)) : Except PyErr String :=
  match dictGetD d "feedDestination" (.str "") with
  | .str s => .ok (strStrip s)
  | _ => .error .attrErr

/-- The music adapter's cache-file-name computation (`Settings.py` line 241):
`artistsList.get("list_name") + '.' + configFile`, a `TypeError` when the
value is not a string. -/
def lastfmCachePathStep (d : List (String × PyVal)) (configFile : String) :
    Except PyErr String :=
  match dictGetD d "list_name" .none with
  | .str s => .ok (s ++ "." ++ configFile)
  | _ => .error .typeErr

/-- The minor-feeds step of the record flow: a `ValueError`/`KeyError`/
`TypeError` from the collection loop is caught and `continue`s the record
(`Option.none`); other exceptions escape. -/
def minorFeedsStep (d : List (String × PyVal)) :
    Except PyErr (Option (List MinorFeed)) :=
  match collectMinorFeeds (dictGetD d "minorFeeds" (.list [])) with
  | .ok l => .ok (some l)
  | .error e => if caughtVKT e then .ok Option.none else .error e

/-- First stages of one music-adapter record (`Settings.py` lines 212-270),
in source order: basic-parts validation, cache file name, cache directory
creation (an `OSError` from `os.makedirs` `continue`s the record), feed name,
feed type, feed destination.  `.ok Option.none` is a `continue`; `.error` is
an exception escaping to the per-file handler; success carries the record's
dict together with the three derived strings. -/
def lastfmPreamble0 (env : LastfmEnv) (configFile : String) (rec : PyVal) :
    Except PyErr (Option (List (String × PyVal) × String × String × String)) :=
  match rec with
  | .dict d =>
    if validRecord d requiredKeys then
      match lastfmCachePathStep d configFile with
      | .error e => .error e
      | .ok _path =>
        if env.dirExists || env.makedirsOk then
          match feedNameStep d with
          | .error e => .error e
          | .ok Option.none => .ok Option.none
          | .ok (some feedName) =>
            match feedTypeStep d with
            | .error e => .error e
            | .ok feedType =>
              match feedDestStep d with
              | .error e => .error e
              | .ok feedDestination =>
                .ok (some (d, feedName, feedType, feedDestination))
        else .ok Option.none
    else .ok Option.none
  | _ => .error .attrErr

/-- The music-adapter record stages through the minor-feed collection
(`Settings.py` lines 212-283). -/
def lastfmPreamble (env : LastfmEnv) (configFile : String) (rec : PyVal) :
    Except PyErr
      (Option (List (String × PyVal) × String × String × String ×
        List MinorFeed)) :=
  match lastfmPreamble0 env configFile rec with
  | .error e => .error e
  | .ok Option.none => .ok Option.none
  | .ok (some (d, feedName, feedType, feedDestination)) =>
    match minorFeedsStep d with
    | .error e => .error e
    | .ok Option.none => .ok Option.none
    | .ok (some minorFeeds) =>
      .ok (some (d, feedName, feedType, feedDestination, minorFeeds))

/-- Embedding of one music-adapter record (`Settings.py` lines 212-372): the
preamble stages, then subject acquisition, then filter compilation (whose
exceptions are caught and `continue`), and finally the built `MajorFeed`. -/
def lastfmRecordFeed (env : LastfmEnv) (configFile : String) (rec : PyVal) :
    Except PyErr (Option MajorFeed) :=
  match lastfmPreamble env configFile rec with
  | .error e => .error e
  | .ok Option.none => .ok Option.none
  | .ok (some (d, feedName, feedType, feedDestination, minorFeeds)) =>
    match lastfmSubjects env with
    | .error e => .error e
    | .ok Option.none => .ok Option.none
    | .ok (some artistsVal) =>
      match lastfmFeedFilters (dictGetD d "filters" (.list [])) artistsVal with
      | .error _ => .ok Option.none
      | .ok ffl =>
        .ok (some ⟨feedName, feedType, feedDestination, minorFeeds, ffl⟩)

/-- The music adapter's insertion step (`Settings.py` line 372): the registry
key is the bare `feedName`. -/
def lastfmProcessRecord (env : LastfmEnv) (configFile : String) (rec : PyVal) :
    Except PyErr (Option (String × MajorFeed)) :=
  match lastfmRecordFeed env configFile rec with
  | .error e => .error e
  | .ok Option.none => .ok Option.none
  | .ok (some feed) => .ok (some (feed.feedName, feed))

/-- The music adapter's per-file record loop: an escaping exception abandons
the file's remaining records (the `except` at `Settings.py` line 374),
keeping what was inserted so far. -/
def lastfmRecordsLoop (env : LastfmEnv) (configFile : String)
    (acc : Registry) : List PyVal → Registry
  | [] => acc
  | r :: rs =>
    match lastfmProcessRecord env configFile r with
    | .error _ => acc
    | .ok Option.none => lastfmRecordsLoop env configFile acc rs
    | .ok (some (k, feed)) =>
      lastfmRecordsLoop env configFile (dictInsert acc k feed) rs

/-- Environment of one tracking-adapter record: as `LastfmEnv`, but the fetch
is a single call. -/
structure TraktEnv where
  dirExists : Bool
  makedirsOk : Bool
  now : ℤ
  cacheMtime : Option ℤ
  fetch : FetchOutcome
  cacheRead : Option PyVal

/-- Embedding of the tracking adapter's subject acquisition (`Settings.py`
lines 498-532): a fresh cache short-circuits to the cache read; a 200 fetch
is used directly (and cached); any failure falls back to the cache read;
`Option.none` is the `continue` on a failed cache read. -/
def traktSubjects (env : TraktEnv) : Except PyErr (Option PyVal) :=
  let stale := pyTruthy (isCacheUpdateNeededDefault env.now env.cacheMtime)
  if !stale then .ok env.cacheRead
  else
    match env.fetch with
    | .exc => .ok env.cacheRead
    | .resp status body =>
      if status = 200 then .ok (some body) else .ok env.cacheRead

/-- Embedding of one tracking-adapter record (`Settings.py` lines 421-595),
in source order: validation, feed name, cache directory creation, feed type,
feed destination, minor feeds, subject acquisition, filter compilation
(exceptions caught, `continue`).  The cache file name
`feedName + '.' + configFile` is a plain string concatenation that cannot
raise, so the file name only reaches the environment's outcomes. -/
def traktRecordFeed (env : TraktEnv) (_configFile : String) (rec : PyVal) :
    Except PyErr (Option MajorFeed) :=
  match rec with
  | .dict d =>
    if validRecord d requiredKeys then
      match feedNameStep d with
      | .error e => .error e
      | .ok Option.none => .ok Option.none
      | .ok (some feedName) =>
        if env.dirExists || env.makedirsOk then
          match feedTypeStep d with
          | .error e => .error e
          | .ok feedType =>
            match feedDestStep d with
            | .error e => .error e
            | .ok feedDestination =>
              match minorFeedsStep d with
              | .error e => .error e
              | .ok Option.none => .ok Option.none
              | .ok (some minorFeeds) =>
                match traktSubjects env with
                | .error e => .error e
                | .ok Option.none => .ok Option.none
                | .ok (some resultsVal) =>
                  match traktFeedFilters feedType
                      (pyTruthyVal (dictGetD d "like" (.bool false)))
                      (dictGetD d "filters" (.list [])) resultsVal with
                  | .error _ => .ok Option.none
                  | .ok ffl =>
                    .ok (some ⟨feedName, feedType, feedDestination,
                      minorFeeds, ffl⟩)
        else .ok Option.none
    else .ok Option.none
  | _ => .error .attrErr

/-- The tracking adapter's insertion step (`Settings.py` line 595): the
registry key is `configFile + '.' + feedName`. -/
def traktProcessRecord (env : TraktEnv) (configFile : String) (rec : PyVal) :
    Except PyErr (Option (String × MajorFeed)) :=
  match traktRecordFeed env configFile rec with
  | .error e => .error e
  | .ok Option.none => .ok Option.none
  | .ok (some feed) => .ok (some (configFile ++ "." ++ feed.feedName, feed))

/-- The tracking adapter's per-file record loop (exception → abandon the rest
of the file, `Settings.py` line 598). -/
def traktRecordsLoop (env : TraktEnv) (configFile : String)
    (acc : Registry) : List PyVal → Registry
  | [] => acc
  | r :: rs =>
    match traktProcessRecord env configFile r with
    | .error _ => acc
    | .ok Option.none => traktRecordsLoop env configFile acc rs
    | .ok (some (k, feed)) =>
      traktRecordsLoop env configFile (dictInsert acc k feed) rs

/-- Embedding of one config file of the tracking adapter (`Settings.py`
lines 402-416): non-`.json` files are skipped, a failed `json.load`
(`parsed = Option.none`) skips the file, and the record loop folds into the
running registry. -/
def traktProcessFile (env : TraktEnv) (configFile : String)
    (parsed : Option PyVal) (acc : Registry) : Registry :=
  if strEndsWith configFile ".json" then
    match parsed with
    | Option.none => acc
    | some v =>
      match pyIter v with
      | .error _ => acc
      | .ok recs => traktRecordsLoop env configFile acc recs
  else acc

/-- Embedding of the tracking adapter's run over the config directory's
files, in listing order; `envOf` gives each file's environment (each record's
cache path is derived from the file name, so the outcomes are per-file). -/
def traktRun (envOf : String → TraktEnv) :
    List (String × Option PyVal) → Registry → Registry
  | [], acc => acc
  | (cf, p) :: fs, acc =>
    traktRun envOf fs (traktProcessFile (envOf cf) cf p acc)

/-- A filter template in already-typed form: the exclude and include
key/value pairs, in order.  Encoded back into the JSON shape the adapters
read by `encodeTemplate`. -/
structure Template where
  excl : List (String × PyVal)
  incl : List (String × PyVal)

/-- JSON shape of a typed template: each pair becomes a one-entry dict
element of the `"exclude"`/`"include"` lists. -/
def encodeTemplate (t : Template) : PyVal :=
  .dict [("exclude", .list (t.excl.map (fun kv => .dict [kv]))),
         ("include", .list (t.incl.map (fun kv => .dict [kv])))]

/-- JSON shape of a typed template list. -/
def encodeTemplates (ts : List Template) : PyVal :=
  .list (ts.map encodeTemplate)

/-- Rules a template contributes after the subject rules: excludes then
includes (spec-side description, compared against the adapters). -/
def templateRules (t : Template) : List Rule :=
  t.excl.map (fun kv => ⟨kv.1, kv.2, true⟩) ++
    t.incl.map (fun kv => ⟨kv.1, kv.2, false⟩)

/-- Modelled from the spec (§4.4 Filter Rule Compiler): for every template
(outer) and every subject (inner) one rule list, the subject's head rules
followed by the template's excludes then includes.  `heads` carries each
subject's leading rules in subject order. -/
def specCompile (heads : List (List Rule)) : List Template → List (List Rule)
  | [] => []
  | t :: ts => heads.map (fun h => h ++ templateRules t) ++ specCompile heads ts

/-- A tracking-service movie item in typed form. -/
structure Movie where
  title : String
  year : ℤ

/-- JSON shape of a movie item as the tracking API returns it. -/
def encodeMovie (m : Movie) : PyVal :=
  .dict [("movie", .dict [("title", .str m.title), ("year", .int m.year)])]

/-- A minor-feed entry in string form: the four optional fields as the JSON
strings the module expects. -/
structure MFRep where
  url : Option String
  minTime : Option String
  minRatioStr : Option String
  comparison : Option String

/-- JSON shape of a string-form minor feed: present fields only. -/
def encodeMFRep (r : MFRep) : PyVal :=
  .dict ((match r.url with | some u => [("url", PyVal.str u)] | Option.none => []) ++
    (match r.minTime with | some v => [("minTime", PyVal.str v)] | Option.none => []) ++
    (match r.minRatioStr with | some v => [("minRatio", PyVal.str v)] | Option.none => []) ++
    (match r.comparison with | some v => [("comparison", PyVal.str v)] | Option.none => []))

/-- Whether a string-form minor feed parses: its `minTime` (default `"0"`)
and `minRatio` (default `"0.0"`) strings convert. -/
def mfWellFormed (r : MFRep) : Bool :=
  (pyIntParse (strStrip (r.minTime.getD "0"))).toOption.isSome &&
    (pyFloatParse (strStrip (r.minRatioStr.getD "0.0"))).toOption.isSome

/-- The minor feed a string-form entry is ingested as: stripped `url`
(default `""`), converted `minTime` (default `0`), converted `minRatio`
(default `0.0`), stripped `comparison` (default `"or"`). -/
def mfInterp (r : MFRep) : MinorFeed :=
  ⟨strStrip (r.url.getD ""),
   (pyIntParse (strStrip (r.minTime.getD "0"))).toOption.getD 0,
   (pyFloatParse (strStrip (r.minRatioStr.getD "0.0"))).toOption.getD ⟨0, 1⟩,
   strStrip (r.comparison.getD "or")⟩

lemma rulesFromPairs_encode (b : Bool)
    (pairs : List ((String × PyVal) × List (String × PyVal))) :
    rulesFromPairs b (pairs.map (fun p => PyVal.dict (p.1 :: p.2))) =
      .ok (pairs.map (fun p => ⟨p.1.1, p.1.2, b⟩)) := by
  induction pairs with
  | nil => rfl
  | cons p ps ih =>
    simp [rulesFromPairs, pyItems, listHead, ih, Bind.bind, Except.bind, pure,
      Except.pure]

lemma rulesFromPairs_single (b : Bool) (kvs : List (String × PyVal)) :
    rulesFromPairs b (kvs.map (fun kv => PyVal.dict [kv])) =
      .ok (kvs.map (fun kv => ⟨kv.1, kv.2, b⟩)) := by
  induction kvs with
  | nil => rfl
  | cons kv rest ih =>
    simp [rulesFromPairs, pyItems, listHead, ih, Bind.bind, Except.bind, pure,
      Except.pure]

lemma templateTail_encode (t : Template) :
    templateTail (encodeTemplate t) = .ok (templateRules t) := by
  simp [templateTail, encodeTemplate, pyDictGetD, dictGetD, dictGet, pyIter,
    rulesFromPairs_single, templateRules, Bind.bind, Except.bind, pure,
    Except.pure]

lemma lastfmRuleList_str (a : String) (t : Template) :
    lastfmRuleList (.str a) (encodeTemplate t) =
      .ok (⟨"artist", .str (lowerStripReplace a), false⟩ :: templateRules t) := by
  simp [lastfmRuleList, templateTail_encode, Bind.bind, Except.bind, pure,
    Except.pure]

lemma exceptMapM_lastfmRuleList (arts : List String) (t : Template) :
    exceptMapM (fun a => lastfmRuleList a (encodeTemplate t))
        (arts.map PyVal.str) =
      .ok (arts.map (fun a =>
        ⟨"artist", .str (lowerStripReplace a), false⟩ :: templateRules t)) := by
  induction arts with
  | nil => rfl
  | cons a rest ih =>
    simp [exceptMapM, lastfmRuleList_str, ih, Bind.bind, Except.bind, pure,
      Except.pure]

lemma lastfmFilterLoop_encode (arts : List String) (ts : List Template) :
    lastfmFilterLoop (arts.map PyVal.str) (ts.map encodeTemplate) =
      .ok (specCompile
        (arts.map (fun a => [⟨"artist", .str (lowerStripReplace a), false⟩]))
        ts) := by
  induction ts with
  | nil => rfl
  | cons t rest ih =>
    simp [lastfmFilterLoop, exceptMapM_lastfmRuleList, ih, specCompile,
      Bind.bind, Except.bind, pure, Except.pure, List.map_map,
      Function.comp]

lemma specCompile_length (heads : List (List Rule)) (ts : List Template) :
    (specCompile heads ts).length = ts.length * heads.length := by
  induction ts with
  | nil => simp [specCompile]
  | cons t rest ih =>
    simp [specCompile, ih, Nat.succ_mul, Nat.add_comm]

lemma specCompile_mem {heads : List (List Rule)} {ts : List Template}
    {rl : List Rule} (h : rl ∈ specCompile heads ts) :
    ∃ hd t, hd ∈ heads ∧ t ∈ ts ∧ rl = hd ++ templateRules t := by
  induction ts with
  | nil => simp [specCompile] at h
  | cons t rest ih =>
    simp only [specCompile, List.mem_append, List.mem_map] at h
    rcases h with ⟨hd, hmem, rfl⟩ | h
    · exact ⟨hd, t, hmem, by simp, rfl⟩
    · obtain ⟨hd, t', h1, h2, h3⟩ := ih h
      exact ⟨hd, t', h1, by simp [h2], h3⟩

lemma lastfmFeedFilters_encode (ts : List Template) (arts : List String) :
    lastfmFeedFilters (encodeTemplates ts) (.list (arts.map PyVal.str)) =
      .ok (specCompile
        (arts.map (fun a => [⟨"artist", .str (lowerStripReplace a), false⟩]))
        ts) := by
  simp [lastfmFeedFilters, encodeTemplates, pyIter, lastfmFilterLoop_encode,
    Bind.bind, Except.bind, pure, Except.pure]

lemma traktItemStep_movie (like : Bool) (t : Template) (st : TraktState)
    (m : Movie) :
    traktItemStep "movie" like (encodeTemplate t) st (encodeMovie m) =
      .ok (⟨.str (lowerStripReplace m.title), .int m.year⟩,
        some (⟨(if like then "titleLike" else "title"),
            .str (lowerStripReplace m.title), false⟩ ::
          ⟨"year", .int m.year, false⟩ :: templateRules t)) := by
  simp [traktItemStep, encodeMovie, pyContains, pyGetItem, dictGet, pyIsNone,
    templateTail_encode, Bind.bind, Except.bind, pure, Except.pure]

lemma traktInner_movies (like : Bool) (t : Template) (ms : List Movie) :
    ∀ st, ∃ st',
      traktInner "movie" like (encodeTemplate t) st (ms.map encodeMovie) =
        .ok (st', ms.map (fun m =>
          ⟨(if like then "titleLike" else "title"),
              .str (lowerStripReplace m.title), false⟩ ::
            ⟨"year", .int m.year, false⟩ :: templateRules t)) := by
  induction ms with
  | nil => exact fun st => ⟨st, rfl⟩
  | cons m rest ih =>
    intro st
    obtain ⟨st', h⟩ := ih ⟨.str (lowerStripReplace m.title), .int m.year⟩
    refine ⟨st', ?_⟩
    simp [traktInner, traktItemStep_movie, h, Bind.bind, Except.bind, pure,
      Except.pure]

lemma traktOuter_movies (like : Bool) (ms : List Movie) (ts : List Template) :
    ∀ st, ∃ st',
      traktOuter "movie" like (ms.map encodeMovie) st (ts.map encodeTemplate) =
        .ok (st', specCompile (ms.map (fun m =>
          [⟨(if like then "titleLike" else "title"),
              .str (lowerStripReplace m.title), false⟩,
            ⟨"year", .int m.year, false⟩])) ts) := by
  induction ts with
  | nil => exact fun st => ⟨st, by simp [traktOuter, specCompile]⟩
  | cons t rest ih =>
    intro st
    obtain ⟨st1, h1⟩ := traktInner_movies like t ms st
    obtain ⟨st2, h2⟩ := ih st1
    refine ⟨st2, ?_⟩
    simp [traktOuter, h1, h2, specCompile, Bind.bind, Except.bind, pure,
      Except.pure, List.map_map, Function.comp]

lemma traktFeedFilters_movies (like : Bool) (ts : List Template)
    (ms : List Movie) :
    traktFeedFilters "movie" like (encodeTemplates ts)
        (.list (ms.map encodeMovie)) =
      .ok (specCompile (ms.map (fun m =>
        [⟨(if like then "titleLike" else "title"),
            .str (lowerStripReplace m.title), false⟩,
          ⟨"year", .int m.year, false⟩])) ts) := by
  obtain ⟨st', h⟩ := traktOuter_movies like ms ts ⟨.none, .none⟩
  simp [traktFeedFilters, encodeTemplates, pyIter, h, Bind.bind, Except.bind,
    pure, Except.pure]

lemma ediv_le_iff {x b m : ℤ} (hb : 0 < b) : x / b ≤ m ↔ x < (m + 1) * b := by
  constructor
  · intro h
    calc x < (x / b + 1) * b := Int.lt_ediv_add_one_mul_self x hb
      _ ≤ (m + 1) * b := by
        have : x / b + 1 ≤ m + 1 := by omega
        exact mul_le_mul_of_nonneg_right this hb.le
  · intro h
    by_contra hc
    push_neg at hc
    have : (m + 1) * b ≤ x := (Int.le_ediv_iff_mul_le hb).mp (by omega)
    omega

lemma le_ceilDiv_iff {a b n : ℤ} (hb : 0 < b) :
    n ≤ ceilDiv a b ↔ (n - 1) * b < a := by
  have h1 : n ≤ ceilDiv a b ↔ (-a) / b ≤ -n := by
    unfold ceilDiv; omega
  rw [h1, ediv_le_iff hb]
  have h2 : (-n + 1) * b = -((n - 1) * b) := by ring
  rw [h2]
  constructor <;> intro h <;> linarith

lemma ceilDiv_mono {a a' b : ℤ} (hb : 0 < b) (h : a ≤ a') :
    ceilDiv a b ≤ ceilDiv a' b := by
  unfold ceilDiv
  have := Int.ediv_le_ediv hb (neg_le_neg h)
  omega

lemma stale_truthy_iff (now : ℤ) (mt : Option ℤ) (freq : ℤ) :
    pyTruthy (isCacheUpdateNeeded false now mt freq) = true ↔
      (modificationDate mt = -1 ∨
        freq ≤ ceilDiv (now - 60 * (modificationDate mt / 60)) 60) := by
  by_cases h1 : modificationDate mt = -1
  · simp [isCacheUpdateNeeded, h1, pyTruthy]
  · by_cases h2 : freq ≤ ceilDiv (now - 60 * (modificationDate mt / 60)) 60 <;>
      simp [isCacheUpdateNeeded, h1, h2, pyTruthy]

lemma goodreadsRuleList_shape {like : Bool} {title f : PyVal} {rl : List Rule}
    (h : goodreadsRuleList like title f = .ok rl) :
    ∃ rest,
      rl = ⟨(if like then "titleLike" else "title"), title, false⟩ :: rest := by
  unfold goodreadsRuleList at h
  cases ht : templateTail f with
  | error e => rw [ht] at h; simp [Bind.bind, Except.bind] at h
  | ok tail =>
    rw [ht] at h
    simp only [Bind.bind, Except.bind, pure, Except.pure, Except.ok.injEq] at h
    exact ⟨tail, h.symm⟩

lemma goodreadsInner_mem {like : Bool} {title f : PyVal} {its : List PyVal}
    {ls : List (List Rule)} {rl : List Rule}
    (h : goodreadsInner like title f its = .ok ls) (hm : rl ∈ ls) :
    ∃ rest,
      rl = ⟨(if like then "titleLike" else "title"), title, false⟩ :: rest := by
  induction its generalizing ls with
  | nil =>
    simp only [goodreadsInner, Except.ok.injEq] at h
    subst h; simp at hm
  | cons i rest ih =>
    unfold goodreadsInner at h
    cases h0 : goodreadsRuleList like title f with
    | error e => rw [h0] at h; simp [Bind.bind, Except.bind] at h
    | ok rl0 =>
      rw [h0] at h
      cases h1 : goodreadsInner like title f rest with
      | error e => rw [h1] at h; simp [Bind.bind, Except.bind] at h
      | ok ls' =>
        rw [h1] at h
        simp only [Bind.bind, Except.bind, pure, Except.pure,
          Except.ok.injEq] at h
        subst h
        rcases List.mem_cons.mp hm with rfl | hmem
        · exact goodreadsRuleList_shape h0
        · exact ih h1 hmem

lemma goodreadsOuter_mem {like : Bool} {title : PyVal} {items : List PyVal}
    {fs : List PyVal} {res : List (List Rule)} {rl : List Rule}
    (h : goodreadsOuter like title items fs = .ok res) (hm : rl ∈ res) :
    ∃ rest,
      rl = ⟨(if like then "titleLike" else "title"), title, false⟩ :: rest := by
  induction fs generalizing res with
  | nil =>
    simp only [goodreadsOuter, Except.ok.injEq] at h
    subst h; simp at hm
  | cons f fs ih =>
    unfold goodreadsOuter at h
    cases h0 : goodreadsInner like title f items with
    | error e => rw [h0] at h; simp [Bind.bind, Except.bind] at h
    | ok ls =>
      rw [h0] at h
      cases h1 : goodreadsOuter like title items fs with
      | error e => rw [h1] at h; simp [Bind.bind, Except.bind] at h
      | ok res' =>
        rw [h1] at h
        simp only [Bind.bind, Except.bind, pure, Except.pure,
          Except.ok.injEq] at h
        subst h
        rcases List.mem_append.mp hm with hmem | hmem
        · exact goodreadsInner_mem h0 hmem
        · exact ih h1 hmem

lemma goodreadsInner_congr {like : Bool} {title f : PyVal}
    {items items' : List PyVal} (h : items.length = items'.length) :
    goodreadsInner like title f items = goodreadsInner like title f items' := by
  induction items generalizing items' with
  | nil => cases items' with
    | nil => rfl
    | cons i' rest' => simp at h
  | cons i rest ih =>
    cases items' with
    | nil => simp at h
    | cons i' rest' =>
      simp only [List.length_cons, Nat.add_right_cancel_iff] at h
      simp only [goodreadsInner, ih h]

lemma goodreadsOuter_congr {like : Bool} {title : PyVal}
    {items items' : List PyVal} (h : items.length = items'.length)
    (fs : List PyVal) :
    goodreadsOuter like title items fs = goodreadsOuter like title items' fs := by
  induction fs with
  | nil => rfl
  | cons f fs ih =>
    simp only [goodreadsOuter, goodreadsInner_congr h, ih]

/-- Whether a fetch outcome is a failed fetch in the adapters' sense: the
request raised, or the response's status is not 200. -/
def fetchFails : FetchOutcome → Bool
  | .exc => true
  | .resp s _ => !(s == 200)

lemma lastfmSubjects_failNoCache {env : LastfmEnv}
    (hstale :
      pyTruthy (isCacheUpdateNeededDefault env.now env.cacheMtime) = true)
    (hfuel : env.fuel ≠ 0) (hfail : fetchFails (env.pages 1) = true)
    (hcache : env.cacheRead = Option.none) :
    lastfmSubjects env = .ok Option.none := by
  obtain ⟨n, hn⟩ : ∃ n, env.fuel = n + 1 := ⟨env.fuel - 1, by omega⟩
  unfold lastfmSubjects
  rw [hstale, hn]
  cases hp : env.pages 1 with
  | exc =>
    simp [lastfmLoop, hp, exceptMapM, hcache]
  | resp s body =>
    unfold fetchFails at hfail
    rw [hp] at hfail
    have hs : ¬(s = 200) := by simpa using hfail
    simp [lastfmLoop, hp, hs, exceptMapM, hcache]

lemma lastfmRecord_failNoCache {env : LastfmEnv} {configFile : String}
    {rec : PyVal}
    {pre : List (String × PyVal) × String × String × String × List MinorFeed}
    (hpre : lastfmPreamble env configFile rec = .ok (some pre))
    (hstale :
      pyTruthy (isCacheUpdateNeededDefault env.now env.cacheMtime) = true)
    (hfuel : env.fuel ≠ 0) (hfail : fetchFails (env.pages 1) = true)
    (hcache : env.cacheRead = Option.none) :
    lastfmProcessRecord env configFile rec = .ok Option.none := by
  obtain ⟨d, fn, ft, fd, mfs⟩ := pre
  unfold lastfmProcessRecord lastfmRecordFeed
  rw [hpre, lastfmSubjects_failNoCache hstale hfuel hfail hcache]

lemma lastfmRecordsLoop_skip {env : LastfmEnv} {configFile : String}
    {acc : Registry} {rec : PyVal} {rest : List PyVal}
    (h : lastfmProcessRecord env configFile rec = .ok Option.none) :
    lastfmRecordsLoop env configFile acc (rec :: rest) =
      lastfmRecordsLoop env configFile acc rest := by
  simp [lastfmRecordsLoop, h]

lemma lastfmRecord_minorFeedsDrop {env : LastfmEnv} {configFile : String}
    {rec : PyVal} {d : List (String × PyVal)} {fn ft fd : String} {e : PyErr}
    (hpre : lastfmPreamble0 env configFile rec = .ok (some (d, fn, ft, fd)))
    (herr : collectMinorFeeds (dictGetD d "minorFeeds" (.list [])) = .error e)
    (hc : caughtVKT e = true) :
    lastfmProcessRecord env configFile rec = .ok Option.none := by
  unfold lastfmProcessRecord lastfmRecordFeed lastfmPreamble minorFeedsStep
  rw [hpre]
  simp [herr, hc]

lemma parseMinorFeed_encode {r : MFRep} (h : mfWellFormed r = true) :
    parseMinorFeed (encodeMFRep r) = .ok (mfInterp r) := by
  obtain ⟨u, mt, mr, c⟩ := r
  cases hInt : pyIntParse (strStrip (mt.getD "0")) with
  | error e =>
    exfalso; unfold mfWellFormed at h
    rw [hInt] at h; simp [Except.toOption] at h
  | ok n =>
    cases hFlt : pyFloatParse (strStrip (mr.getD "0.0")) with
    | error e =>
      exfalso; unfold mfWellFormed at h
      rw [hFlt] at h; simp [Except.toOption] at h
    | ok q =>
      cases u <;> cases mt <;> cases mr <;> cases c <;>
        simp_all [parseMinorFeed, encodeMFRep, pyDictGetD, dictGetD, dictGet,
          pyStrip, mfInterp, Except.toOption, Bind.bind, Except.bind, pure,
          Except.pure]

lemma exceptMapM_parseMF {reps : List MFRep}
    (h : ∀ r ∈ reps, mfWellFormed r = true) :
    exceptMapM parseMinorFeed (reps.map encodeMFRep) =
      .ok (reps.map mfInterp) := by
  induction reps with
  | nil => rfl
  | cons r rest ih =>
    have h1 := parseMinorFeed_encode (h r (by simp))
    have h2 := ih (fun x hx => h x (by simp [hx]))
    simp only [List.map_cons, exceptMapM]
    rw [h1, h2]

lemma collectMinorFeeds_encode {reps : List MFRep}
    (h : ∀ r ∈ reps, mfWellFormed r = true) :
    collectMinorFeeds (.list (reps.map encodeMFRep)) =
      .ok (reps.map mfInterp) := by
  cases reps with
  | nil => rfl
  | cons r rest =>
    have hm := exceptMapM_parseMF h
    simp only [List.map_cons] at hm
    simp only [collectMinorFeeds, pyIsNone, pyLen, pyIter, List.map_cons]
    simp [hm, Bind.bind, Except.bind]

lemma traktProcessRecord_key {env : TraktEnv} {configFile : String}
    {rec : PyVal} {k : String} {feed : MajorFeed}
    (h : traktProcessRecord env configFile rec = .ok (some (k, feed))) :
    k = configFile ++ "." ++ feed.feedName := by
  unfold traktProcessRecord at h
  cases h0 : traktRecordFeed env configFile rec with
  | error e => rw [h0] at h; simp at h
  | ok o =>
    rw [h0] at h
    cases o with
    | none => simp at h
    | some f =>
      simp only [Except.ok.injEq, Option.some.injEq, Prod.mk.injEq] at h
      obtain ⟨hk, hf⟩ := h
      subst hf
      exact hk.symm

lemma lastfmProcessRecord_key {env : LastfmEnv} {configFile : String}
    {rec : PyVal} {k : String} {feed : MajorFeed}
    (h : lastfmProcessRecord env configFile rec = .ok (some (k, feed))) :
    k = feed.feedName := by
  unfold lastfmProcessRecord at h
  cases h0 : lastfmRecordFeed env configFile rec with
  | error e => rw [h0] at h; simp at h
  | ok o =>
    rw [h0] at h
    cases o with
    | none => simp at h
    | some f =>
      simp only [Except.ok.injEq, Option.some.injEq, Prod.mk.injEq] at h
      obtain ⟨hk, hf⟩ := h
      subst hf
      exact hk.symm

lemma regLookup_dictInsert_self (reg : Registry) (k : String) (v : MajorFeed) :
    regLookup (dictInsert reg k v) k = some v := by
  induction reg with
  | nil => simp [dictInsert, regLookup]
  | cons p rest ih =>
    obtain ⟨k', v'⟩ := p
    by_cases h : k' = k <;> simp [dictInsert, regLookup, h, ih]

lemma regLookup_dictInsert_other {reg : Registry} {k k' : String}
    {v : MajorFeed} (h : k' ≠ k) :
    regLookup (dictInsert reg k v) k' = regLookup reg k' := by
  have h2 : ¬ k = k' := Ne.symm h
  induction reg with
  | nil => simp [dictInsert, regLookup, h2]
  | cons p rest ih =>
    obtain ⟨k0, v0⟩ := p
    by_cases h0 : k0 = k
    · subst h0
      simp [dictInsert, regLookup, h2]
    · simp [dictInsert, regLookup, h0, ih]

/-- C1 counterexample: in the tracking adapter with `feedType = "movie"`, a
single movie item and a single template with no excludes and no includes
yield one rule list of two rules (the match rule and a `"year"` rule), not
`1 + 0 + 0 = 1` rules as the claim states. -/
theorem c1_counterexample :
    traktFeedFilters "movie" false (encodeTemplates [⟨[], []⟩])
        (.list [encodeMovie ⟨"Heat", 1995⟩]) =
      .ok [[⟨"title", .str "heat", false⟩, ⟨"year", .int 1995, false⟩]] ∧
    ([(⟨"title", .str "heat", false⟩ : Rule),
        ⟨"year", .int 1995, false⟩].length ≠ 1 + 0 + 0) :=
  ⟨rfl, by decide⟩

/-- C1 (amended): the music adapter's compile step on N subjects and M
templates produces exactly M×N rule lists (templates outer, subjects inner),
each exactly the `"artist"` match rule, the excludes, then the includes; the
tracking adapter with movie items produces M×N rule lists whose heads are the
match rule followed by a `"year"` rule.  In general `specCompile` yields
`templates × subjects` rule lists of the form `subject head ++ excludes ++
includes`. -/
theorem c1_ruleCompiler_amended :
    (∀ (ts : List Template) (arts : List String),
      lastfmFeedFilters (encodeTemplates ts) (.list (arts.map PyVal.str)) =
        .ok (specCompile
          (arts.map (fun a => [⟨"artist", .str (lowerStripReplace a), false⟩]))
          ts)) ∧
    (∀ (like : Bool) (ts : List Template) (ms : List Movie),
      traktFeedFilters "movie" like (encodeTemplates ts)
          (.list (ms.map encodeMovie)) =
        .ok (specCompile (ms.map (fun m =>
          [⟨(if like then "titleLike" else "title"),
              .str (lowerStripReplace m.title), false⟩,
            ⟨"year", .int m.year, false⟩])) ts)) ∧
    (∀ (heads : List (List Rule)) (ts : List Template),
      (specCompile heads ts).length = ts.length * heads.length) ∧
    (∀ (heads : List (List Rule)) (ts : List Template) (rl : List Rule),
      rl ∈ specCompile heads ts →
        ∃ hd t, hd ∈ heads ∧ t ∈ ts ∧ rl = hd ++ templateRules t) :=
  ⟨lastfmFeedFilters_encode, traktFeedFilters_movies, specCompile_length,
    fun _ _ _ h => specCompile_mem h⟩

/-- C1 witness: the amended compiler law evaluated at one subject and one
template with one exclude and one include pair. -/
theorem c1_ruleCompiler_amended_witness :
    lastfmFeedFilters
        (encodeTemplates [⟨[("q", .str "hd")], [("src", .str "web")]⟩])
        (.list [.str "Simon & Garfunkel"]) =
      .ok [[⟨"artist", .str "simon and garfunkel", false⟩,
        ⟨"q", .str "hd", true⟩, ⟨"src", .str "web", false⟩]] := by
  have h := c1_ruleCompiler_amended.1
    [⟨[("q", .str "hd")], [("src", .str "web")]⟩] ["Simon & Garfunkel"]
  simpa using h

/-- C3 counterexample: with frequency 360 and a cache written 21570 seconds
ago (modification time 30, now 21600), the modification time is strictly
newer than `now - frequencyMinutes` (30 > 21600 - 21600 = 0), yet the check
returns true: the code's `ceil(now/60 - lastModified/60)` — with the Python 2
floor division `30/60 = 0` — evaluates to `ceil(360.0) = 360 ≥ 360`. -/
theorem c3_counterexample :
    isCacheUpdateNeeded false 21600 (some 30) 360 = some true ∧
    (21600 : ℤ) - 360 * 60 < 30 :=
  ⟨rfl, by decide⟩

/-- C3 (amended): for a readable modification time (other than the sentinel
-1) the check compares `ceil(now/60 - lastModified/60)` with `≥` to the
frequency, where Python 2 floor-divides the integer `lastModified` by 60
while `now/60` is float division — so the comparison is
`frequency ≤ ceilDiv (now - 60 * (lastModified / 60)) 60`.  It returns true
whenever the modification time is older than `now - frequencyMinutes`, and
false whenever the elapsed seconds are at most `60*(frequency-1) - 59`, but
near the threshold it fires early: up to one minute from the ceiling and up
to another 59 seconds from flooring the modification time to its whole
minute — at `now = 121`, `mtime = 119`, `frequency = 2` a cache only two
seconds old is already reported stale.  A missing or unreadable modification
time always yields true, and the default frequency is 360. -/
theorem c3_staleness_amended :
    (∀ now freq : ℤ,
      isCacheUpdateNeeded false now Option.none freq = some true) ∧
    (∀ now m freq : ℤ, m ≠ -1 →
      freq ≤ ceilDiv (now - 60 * (m / 60)) 60 →
      isCacheUpdateNeeded false now (some m) freq = some true) ∧
    (∀ now m freq : ℤ, m ≠ -1 →
      ceilDiv (now - 60 * (m / 60)) 60 < freq →
      isCacheUpdateNeeded false now (some m) freq = some false) ∧
    (∀ now m freq : ℤ, m ≠ -1 → m < now - 60 * freq →
      isCacheUpdateNeeded false now (some m) freq = some true) ∧
    (∀ now m freq : ℤ, m ≠ -1 → now - m ≤ 60 * (freq - 1) - 59 →
      isCacheUpdateNeeded false now (some m) freq = some false) ∧
    isCacheUpdateNeeded false 121 (some 119) 2 = some true ∧
    (∀ now mt, isCacheUpdateNeededDefault now mt =
      isCacheUpdateNeeded false now mt 360) := by
  refine ⟨fun now freq => rfl, ?_, ?_, ?_, ?_, rfl, fun now mt => rfl⟩
  · intro now m freq h1 h2
    simp [isCacheUpdateNeeded, modificationDate, h1, h2]
  · intro now m freq h1 h2
    simp [isCacheUpdateNeeded, modificationDate, h1, not_le.mpr h2]
  · intro now m freq h1 h2
    have h3 : freq ≤ ceilDiv (now - 60 * (m / 60)) 60 := by
      rw [le_ceilDiv_iff (by decide : (0:ℤ) < 60)]
      omega
    simp [isCacheUpdateNeeded, modificationDate, h1, h3]
  · intro now m freq h1 h2
    have h3 : ¬ freq ≤ ceilDiv (now - 60 * (m / 60)) 60 := by
      rw [le_ceilDiv_iff (by decide : (0:ℤ) < 60)]
      omega
    simp [isCacheUpdateNeeded, modificationDate, h1, h3]

/-- C3 witness: the amended staleness law at concrete inputs — a cache
modified 6+ hours ago is stale, a cache modified at the current instant is
not. -/
theorem c3_staleness_amended_witness :
    isCacheUpdateNeeded false 30000 (some 0) 360 = some true ∧
    isCacheUpdateNeeded false 0 (some 0) 360 = some false :=
  ⟨c3_staleness_amended.2.2.2.1 30000 0 360 (by decide) (by decide),
    c3_staleness_amended.2.2.2.2.1 0 0 360 (by decide) (by decide)⟩

/-- C6 counterexample: on the internal-fault path the check returns Python
`None` (which is falsy), not the boolean `true` the claim states the caller
receives. -/
theorem c6_counterexample :
    isCacheUpdateNeeded true 0 Option.none 360 = Option.none ∧
    (Option.none : Option Bool) ≠ some true :=
  ⟨rfl, by decide⟩

/-- C6 (amended): the staleness check never raises — every non-fault path
returns a boolean — but its `except Exception` handler has no `return`, so on
an internal fault the caller receives `None`, a falsy value: truthiness tests
then treat the cache as not needing an update, rather than forcing a
refresh. -/
theorem c6_faultValue_amended :
    (∀ (now : ℤ) (mt : Option ℤ) (freq : ℤ),
      isCacheUpdateNeeded true now mt freq = Option.none) ∧
    pyTruthy Option.none = false ∧
    (∀ (now : ℤ) (mt : Option ℤ) (freq : ℤ),
      ∃ b, isCacheUpdateNeeded false now mt freq = some b) := by
  refine ⟨fun _ _ _ => rfl, rfl, ?_⟩
  intro now mt freq
  cases mt with
  | none => exact ⟨true, rfl⟩
  | some m =>
    by_cases h1 : m = -1
    · exact ⟨true, by simp [isCacheUpdateNeeded, modificationDate, h1]⟩
    · by_cases h2 : freq ≤ ceilDiv (now - 60 * (m / 60)) 60
      · exact ⟨true, by simp [isCacheUpdateNeeded, modificationDate, h1, h2]⟩
      · exact ⟨false, by simp [isCacheUpdateNeeded, modificationDate, h1, h2]⟩

/-- C10: every element of a template's `exclude`/`include` list contributes
exactly one rule, built from the element's first key/value pair; further
pairs in the same element are ignored.  Shown in general over the shared
pair loop, and at the music and raw-descriptor adapters on an element
carrying a second, ignored pair. -/
theorem c10_firstPairOnly_confirmed :
    (∀ (b : Bool) (pairs : List ((String × PyVal) × List (String × PyVal))),
      rulesFromPairs b (pairs.map (fun p => PyVal.dict (p.1 :: p.2))) =
        .ok (pairs.map (fun p => ⟨p.1.1, p.1.2, b⟩))) ∧
    lastfmRuleList (.str "x")
        (.dict [("exclude",
          .list [.dict [("k1", .str "v1"), ("k2", .str "v2")]])]) =
      .ok [⟨"artist", .str "x", false⟩, ⟨"k1", .str "v1", true⟩] ∧
    rssFeedFilters
        (.list [.dict [("exclude",
            .list [.dict [("k1", .str "v1"), ("k2", .str "v2")]]),
          ("include", .list [])]]) =
      .ok [[⟨"k1", .str "v1", true⟩]] :=
  ⟨rulesFromPairs_encode, rfl, rfl⟩

/-- Environment for the C2 scenario: a stale-with-no-file cache (missing
modification time), every fetched page answering HTTP 500, and a cache read
that fails (no file). -/
def c2Env : LastfmEnv :=
  ⟨true, true, 1000, Option.none, fun _ => .resp 500 (.dict []), 8,
    Option.none⟩

/-- A fully valid music-adapter record named `rock` with one (empty) filter
template, for the C2 scenario. -/
def c2Rec : PyVal :=
  .dict [("username", .str "u"), ("api_key", .str "k"),
    ("list_name", .str "Rock"), ("type", .str "music"),
    ("feedDestination", .str "/d"), ("minorFeeds", .list []),
    ("filters", .list [.dict []])]

/-- C2 counterexample: with a 500 fetch and no cache file, the record is
dropped entirely — the returned mapping is empty and contains no `rock`
entry, where the claim says the record still appears with
`feedFilters == []`. -/
theorem c2_counterexample :
    lastfmProcessRecord c2Env "music.json" c2Rec = .ok Option.none ∧
    lastfmRecordsLoop c2Env "music.json" [] [c2Rec] = [] ∧
    regLookup (lastfmRecordsLoop c2Env "music.json" [] [c2Rec]) "rock" =
      Option.none :=
  ⟨rfl, rfl, rfl⟩

/-- C2 (amended): for every record that reaches the fetch with a stale cache
check, a failed first page (exception or non-200 status) and a failing cache
read, the record is dropped (`continue`) and contributes nothing to the
mapping: the cache-read fallback raises and the `except` around it skips the
record, so no entry with empty `feedFilters` is produced. -/
theorem c2_fetchFailureNoCache_amended :
    (∀ (env : LastfmEnv) (configFile : String) (rec : PyVal) pre,
      lastfmPreamble env configFile rec = .ok (some pre) →
      pyTruthy (isCacheUpdateNeededDefault env.now env.cacheMtime) = true →
      env.fuel ≠ 0 → fetchFails (env.pages 1) = true →
      env.cacheRead = Option.none →
      lastfmProcessRecord env configFile rec = .ok Option.none) ∧
    (∀ (env : LastfmEnv) (configFile : String) (acc : Registry) (rec : PyVal)
      (rest : List PyVal),
      lastfmProcessRecord env configFile rec = .ok Option.none →
      lastfmRecordsLoop env configFile acc (rec :: rest) =
        lastfmRecordsLoop env configFile acc rest) :=
  ⟨fun _ _ _ _ hpre hstale hfuel hfail hcache =>
      lastfmRecord_failNoCache hpre hstale hfuel hfail hcache,
    fun _ _ _ _ _ h => lastfmRecordsLoop_skip h⟩

/-- C2 witness: the amended drop law applied to the concrete 500-and-no-cache
scenario. -/
theorem c2_fetchFailureNoCache_amended_witness :
    lastfmProcessRecord c2Env "music.json" c2Rec = .ok Option.none :=
  c2_fetchFailureNoCache_amended.1 c2Env "music.json" c2Rec
    ([("username", .str "u"), ("api_key", .str "k"),
        ("list_name", .str "Rock"), ("type", .str "music"),
        ("feedDestination", .str "/d"), ("minorFeeds", .list []),
        ("filters", .list [.dict []])],
      "rock", "music", "/d", [])
    rfl rfl (by decide) rfl rfl

/-- C4 counterexample: the cataloging adapter's normalization keeps the
original case — `"Simon & Garfunkel"` becomes `"Simon and Garfunkel"`, not
the `"simon and garfunkel"` the claim requires of every adapter. -/
theorem c4_counterexample :
    goodreadsParseAuthors [some (some "Simon & Garfunkel")] =
      ["Simon and Garfunkel"] ∧
    ("Simon and Garfunkel" : String) ≠ "simon and garfunkel" :=
  ⟨rfl, by decide⟩

/-- C4 (amended): the music (and tracking) adapters normalize a subject by
lower-casing, trimming and replacing `" & "` with `" and "` at rule-binding
time; the cataloging adapter normalizes at fetch-parse time by trimming and
replacing only, without lower-casing, so `"Simon & Garfunkel"` becomes
`"simon and garfunkel"` in the former and `"Simon and Garfunkel"` in the
latter. -/
theorem c4_normalization_amended :
    (∀ (a : String) (t : Template),
      lastfmRuleList (.str a) (encodeTemplate t) =
        .ok (⟨"artist", .str (lowerStripReplace a), false⟩ ::
          templateRules t)) ∧
    (∀ s : String, s ≠ "" →
      goodreadsParseAuthors [some (some s)] = [goodreadsNormalize s]) ∧
    lowerStripReplace "Simon & Garfunkel" = "simon and garfunkel" ∧
    goodreadsNormalize "Simon & Garfunkel" = "Simon and Garfunkel" ∧
    goodreadsNormalize "Simon & Garfunkel" ≠
      lowerStripReplace "Simon & Garfunkel" := by
  refine ⟨lastfmRuleList_str, ?_, rfl, rfl, by decide⟩
  intro s hs
  simp [goodreadsParseAuthors, hs]

/-- C4 witness: the amended normalization law at the spec's own example
subject. -/
theorem c4_normalization_amended_witness :
    goodreadsParseAuthors [some (some "Simon & Garfunkel")] =
      [goodreadsNormalize "Simon & Garfunkel"] :=
  c4_normalization_amended.2.1 "Simon & Garfunkel" (by decide)

/-- C5: in the cataloging adapter's compile step the first rule of every
emitted rule list binds the match key to the record-level `title` variable —
`None` as initialized, never the author name — and the compiled output does
not depend on the author items' values at all, only on how many there are. -/
theorem c5_goodreadsTitleNone_confirmed :
    (∀ (like : Bool) (fv rv : PyVal) (res : List (List Rule)),
      goodreadsFeedFilters like fv rv PyVal.none = .ok res →
      ∀ rl ∈ res, ∃ rest,
        rl = ⟨(if like then "titleLike" else "title"), PyVal.none, false⟩ ::
          rest) ∧
    (∀ (like : Bool) (fv : PyVal) (items items' : List PyVal),
      items.length = items'.length →
      goodreadsFeedFilters like fv (.list items) PyVal.none =
        goodreadsFeedFilters like fv (.list items') PyVal.none) := by
  constructor
  · intro like fv rv res h rl hm
    unfold goodreadsFeedFilters at h
    cases hf : pyIter fv with
    | error e => rw [hf] at h; simp [Bind.bind, Except.bind] at h
    | ok fs =>
      rw [hf] at h
      cases hr : pyIter rv with
      | error e => rw [hr] at h; simp [Bind.bind, Except.bind] at h
      | ok items =>
        rw [hr] at h
        simp only [Bind.bind, Except.bind] at h
        exact goodreadsOuter_mem h hm
  · intro like fv items items' hlen
    unfold goodreadsFeedFilters
    cases hf : pyIter fv with
    | error e => rfl
    | ok fs =>
      simp only [pyIter, Bind.bind, Except.bind]
      exact goodreadsOuter_congr hlen fs

/-- C5 witness: one author item and one empty template compile to a single
rule list whose head binds `"title"` to `None`. -/
theorem c5_goodreadsTitleNone_confirmed_witness :
    ∃ rest, [(⟨"title", PyVal.none, false⟩ : Rule)] =
      ⟨"title", PyVal.none, false⟩ :: rest := by
  have h := c5_goodreadsTitleNone_confirmed.1 false
    (.list [.dict []]) (.list [.str "author"])
    [[⟨"title", PyVal.none, false⟩]] rfl
    [⟨"title", PyVal.none, false⟩] (by simp)
  exact h

/-- Environment for the C7 race scenario: the cache directory is missing and
`os.makedirs` raises (another process created it first); the cache itself is
fresh and readable, so the record would otherwise succeed. -/
def c7Env : LastfmEnv :=
  ⟨false, false, 0, some 0, fun _ => .exc, 8, some (.list [])⟩

/-- The same environment with `os.makedirs` succeeding, for contrast. -/
def c7EnvOk : LastfmEnv :=
  ⟨false, true, 0, some 0, fun _ => .exc, 8, some (.list [])⟩

/-- A fully valid music-adapter record for the C7 scenario. -/
def c7Rec : PyVal :=
  .dict [("username", .str "u"), ("api_key", .str "k"),
    ("list_name", .str "rock"), ("type", .str "music"),
    ("feedDestination", .str "/d"), ("minorFeeds", .list [])]

/-- C7 counterexample: when the directory-existence check is false and
`os.makedirs` raises `OSError` (the pre-existing-directory race), the record
is skipped and contributes nothing, while the identical record with a
successful `makedirs` produces its registry entry — so the race is an error
for the record being processed, contrary to the claim. -/
theorem c7_counterexample :
    lastfmProcessRecord c7Env "music.json" c7Rec = .ok Option.none ∧
    lastfmRecordsLoop c7Env "music.json" [] [c7Rec] = [] ∧
    lastfmProcessRecord c7EnvOk "music.json" c7Rec =
      .ok (some ("rock", ⟨"rock", "music", "/d", [], []⟩)) :=
  ⟨rfl, rfl, rfl⟩

/-- C7 (amended): whenever the write-time staleness check is truthy (which is
guaranteed after a fetch, since the pre-fetch check was truthy and staleness
is monotone in the clock), `updateCacheFile` replaces the cache content with
exactly the serialized data, independent of the previous content (no merge);
the adapter creates missing cache directories before fetching and writing,
but a lost creation race (`os.makedirs` raising) skips the record for that
iteration instead of being ignored. -/
theorem c7_cacheWrite_amended :
    (∀ (now : ℤ) (mt : Option ℤ) (freq : ℤ) (old : Option String)
      (data : String),
      pyTruthy (isCacheUpdateNeeded false now mt freq) = true →
      updateCacheFile false true now mt freq old data = some data) ∧
    (∀ (now now' : ℤ) (mt : Option ℤ) (freq : ℤ), now ≤ now' →
      pyTruthy (isCacheUpdateNeeded false now mt freq) = true →
      pyTruthy (isCacheUpdateNeeded false now' mt freq) = true) ∧
    (∀ (env : LastfmEnv) (configFile : String) (d : List (String × PyVal))
      (s : String),
      validRecord d requiredKeys = true →
      dictGetD d "list_name" PyVal.none = .str s →
      env.dirExists = false → env.makedirsOk = false →
      lastfmProcessRecord env configFile (.dict d) = .ok Option.none) := by
  refine ⟨?_, ?_, ?_⟩
  · intro now mt freq old data h
    simp [updateCacheFile, h]
  · intro now now' mt freq hle h
    rw [stale_truthy_iff] at h ⊢
    rcases h with h | h
    · exact Or.inl h
    · exact Or.inr (le_trans h (ceilDiv_mono (by decide) (by omega)))
  · intro env configFile d s hv hs hd hm
    unfold lastfmProcessRecord lastfmRecordFeed lastfmPreamble lastfmPreamble0
    simp [hv, lastfmCachePathStep, hs, hd, hm]

/-- C7 witness: the amended write law at concrete inputs — a stale cache is
overwritten with the new data whatever it held, and a concrete valid record
is skipped on the failed directory creation. -/
theorem c7_cacheWrite_amended_witness :
    updateCacheFile false true 30000 (some 0) 360 (some "old") "new" =
      some "new" ∧
    lastfmProcessRecord c7Env "music.json" c7Rec = .ok Option.none :=
  ⟨c7_cacheWrite_amended.1 30000 (some 0) 360 (some "old") "new" (by decide),
    c7_cacheWrite_amended.2.2 c7Env "music.json"
      [("username", .str "u"), ("api_key", .str "k"),
        ("list_name", .str "rock"), ("type", .str "music"),
        ("feedDestination", .str "/d"), ("minorFeeds", .list [])]
      "rock" (by decide) rfl rfl rfl⟩

/-- Environment for the C8 scenario: nothing stale, readable empty cache. -/
def c8Env : LastfmEnv :=
  ⟨true, true, 0, some 0, fun _ => .exc, 8, some (.list [])⟩

/-- A record whose one minor feed carries exactly the claim's declared field
types — `url` a string, `minTime` an integer, `minRatio` a float,
`comparison` a string. -/
def c8Rec : PyVal :=
  .dict [("username", .str "u"), ("api_key", .str "k"),
    ("list_name", .str "rock"), ("type", .str "music"),
    ("feedDestination", .str "/d"),
    ("minorFeeds", .list [.dict [("url", .str "http://x"),
      ("minTime", .int 5), ("minRatio", .float ⟨25, 1⟩),
      ("comparison", .str "or")]])]

/-- C8 counterexample: a minor feed whose `minTime` is an actual integer (and
`minRatio` an actual float) raises `AttributeError` at `.strip()`; the
record is abandoned — and because `AttributeError` is not among the caught
`(ValueError, KeyError, TypeError)`, the exception escapes and ends the whole
file's record loop — where the claim says such a record is not abandoned. -/
theorem c8_counterexample :
    parseMinorFeed (.dict [("url", .str "http://x"), ("minTime", .int 5),
        ("minRatio", .float ⟨25, 1⟩), ("comparison", .str "or")]) =
      .error PyErr.attrErr ∧
    lastfmProcessRecord c8Env "music.json" c8Rec = .error PyErr.attrErr ∧
    lastfmRecordsLoop c8Env "music.json" [] [c8Rec] = [] :=
  ⟨rfl, rfl, rfl⟩

/-- C8 (amended): a minor-feed field that fails to parse with a `ValueError`,
`KeyError` or `TypeError` abandons the whole record (fail-fast, the record
contributes nothing); a field holding a non-string value (such as an actual
integer `minTime`) instead raises `AttributeError`, which abandons the record
and the remainder of its file; conversely, a record whose minor-feed fields
are all strings whose `minTime`/`minRatio` contents convert is ingested
completely, with the defaults `""`, `0`, `0.0` and `"or"` for absent
fields. -/
theorem c8_minorFeeds_amended :
    (∀ (env : LastfmEnv) (configFile : String) (rec : PyVal)
      (d : List (String × PyVal)) (fn ft fd : String) (e : PyErr),
      lastfmPreamble0 env configFile rec = .ok (some (d, fn, ft, fd)) →
      collectMinorFeeds (dictGetD d "minorFeeds" (.list [])) = .error e →
      caughtVKT e = true →
      lastfmProcessRecord env configFile rec = .ok Option.none) ∧
    (∀ reps : List MFRep, (∀ r ∈ reps, mfWellFormed r = true) →
      collectMinorFeeds (.list (reps.map encodeMFRep)) =
        .ok (reps.map mfInterp)) ∧
    collectMinorFeeds (.list [PyVal.dict []]) =
      .ok [⟨"", 0, ⟨0, 1⟩, "or"⟩] :=
  ⟨fun _ _ _ _ _ _ _ _ hpre herr hc =>
      lastfmRecord_minorFeedsDrop hpre herr hc,
    fun _ h => collectMinorFeeds_encode h, rfl⟩

/-- A record whose minor feed's `minTime` string does not parse, for the C8
witness. -/
def c8wRec : PyVal :=
  .dict [("username", .str "u"), ("api_key", .str "k"),
    ("list_name", .str "rock"), ("type", .str "music"),
    ("feedDestination", .str "/d"),
    ("minorFeeds", .list [.dict [("url", .str "http://x"),
      ("minTime", .str "soon")]])]

/-- C8 witness: the amended fail-fast law at a concrete record whose
`minTime` string raises `ValueError`, and the ingestion law at one fully
stringly-typed minor feed. -/
theorem c8_minorFeeds_amended_witness :
    lastfmProcessRecord c8Env "music.json" c8wRec = .ok Option.none ∧
    collectMinorFeeds (.list [encodeMFRep
        ⟨some " http://x ", some "5", some "2.5", some "and"⟩]) =
      .ok [⟨"http://x", 5, ⟨25, 1⟩, "and"⟩] := by
  constructor
  · exact c8_minorFeeds_amended.1 c8Env "music.json" c8wRec
      [("username", .str "u"), ("api_key", .str "k"),
        ("list_name", .str "rock"), ("type", .str "music"),
        ("feedDestination", .str "/d"),
        ("minorFeeds", .list [.dict [("url", .str "http://x"),
          ("minTime", .str "soon")]])]
      "rock" "music" "/d" PyErr.valueErr rfl rfl rfl
  · have h := c8_minorFeeds_amended.2.1
      [⟨some " http://x ", some "5", some "2.5", some "and"⟩]
      (by intro r hr; simp at hr; subst hr; decide)
    exact h

/-- Per-file environment for the C9 scenario: a fresh, readable, empty cache
for every file, so no network is consulted. -/
def c9EnvOf : String → TraktEnv :=
  fun _ => ⟨true, true, 0, some 0, .exc, some (.list [])⟩

/-- A valid tracking-adapter record named `news`, appearing identically in
two descriptor files. -/
def c9Rec : PyVal :=
  .dict [("username", .str "u"), ("api_key", .str "k"),
    ("list_name", .str "News"), ("type", .str "none"),
    ("feedDestination", .str "/d"), ("minorFeeds", .list [])]

/-- The feed both descriptor files define. -/
def c9Feed : MajorFeed := ⟨"news", "none", "/d", [], []⟩

/-- C9 counterexample: two descriptor files (`a.json`, `b.json`) defining the
same `feedName = "news"` leave the tracking adapter's registry with TWO
entries, one per composite key — the earlier file's entry is still present —
whereas the claim says one entry under the later file's composite key
only. -/
theorem c9_counterexample :
    traktRun c9EnvOf
        [("a.json", some (.list [c9Rec])), ("b.json", some (.list [c9Rec]))]
        [] =
      [("a.json.news", c9Feed), ("b.json.news", c9Feed)] ∧
    regLookup (traktRun c9EnvOf
        [("a.json", some (.list [c9Rec])), ("b.json", some (.list [c9Rec]))]
        []) "a.json.news" = some c9Feed ∧
    (traktRun c9EnvOf
        [("a.json", some (.list [c9Rec])), ("b.json", some (.list [c9Rec]))]
        []).length = 2 ∧
    (2 : ℕ) ≠ 1 :=
  ⟨rfl, rfl, rfl, by decide⟩

/-- C9 (amended): the music adapter keys every inserted entry by the bare
`feedName` while the tracking adapter keys by
`configFileName + "." + feedName`; within one run a later insert under an
already-present key silently overwrites the earlier entry and leaves other
keys untouched — so two files sharing a `feedName` collide (and the later
wins) only under the music adapter's bare keys, while the composite-keyed
adapters keep one entry per file. -/
theorem c9_registryKeys_amended :
    (∀ (env : TraktEnv) (configFile : String) (rec : PyVal) (k : String)
      (feed : MajorFeed),
      traktProcessRecord env configFile rec = .ok (some (k, feed)) →
      k = configFile ++ "." ++ feed.feedName) ∧
    (∀ (env : LastfmEnv) (configFile : String) (rec : PyVal) (k : String)
      (feed : MajorFeed),
      lastfmProcessRecord env configFile rec = .ok (some (k, feed)) →
      k = feed.feedName) ∧
    (∀ (reg : Registry) (k : String) (v : MajorFeed),
      regLookup (dictInsert reg k v) k = some v) ∧
    (∀ (reg : Registry) (k k' : String) (v : MajorFeed), k' ≠ k →
      regLookup (dictInsert reg k v) k' = regLookup reg k') :=
  ⟨fun _ _ _ _ _ h => traktProcessRecord_key h,
    fun _ _ _ _ _ h => lastfmProcessRecord_key h,
    regLookup_dictInsert_self,
    fun _ _ _ _ h => regLookup_dictInsert_other h⟩

/-- C9 witness: the amended keying law at the concrete `news` record — the
tracking adapter inserts it under `a.json.news`. -/
theorem c9_registryKeys_amended_witness :
    ("a.json.news" : String) = "a.json" ++ "." ++ c9Feed.feedName :=
  c9_registryKeys_amended.1 (c9EnvOf "a.json") "a.json" c9Rec
    "a.json.news" c9Feed rfl

end FlannelFox
